import Mathlib

/-!
Verification of the admin authentication and rate-limiting core of the
BasedChats repository.

The development shallowly embeds the relevant TypeScript sources:

* `src/lib/rate-limiting.ts` — sliding-window rate limiter
  (`RATE_LIMITS`, `getClientId`, `checkRateLimit`, `checkAuthFailureRateLimit`);
* `src/app/admin/actions/auth.ts` and its fixed duplicate —
  `verifyAdminSignature`, `getAdminSession`, `clearAdminSession`;
* the session validators (`validateAdminSession` from the admin-auth module,
  `validateAdminSessionMiddleware` from `src/middleware.ts`);
* the authorization utilities (`getAuthorizedAddresses`,
  `isAuthorizedAddress`, `AUTHORIZED_ADDRESSES_VERSION`) and
  `SECURE_COOKIE_OPTIONS`.

Timestamps are modelled as `Int` (milliseconds since epoch), the in-memory
rate-limit store as an association list keyed by client id (the JS `Map`
keyed by `clientId`), and JS truthiness of possibly-absent strings/numbers is
made explicit.  External effects (the `viem` signature check, cookie and
header access, environment variables) are passed in as explicit arguments so
that every function is pure and executable.
-/

/-! ## JavaScript truthiness helpers -/

/-- JS `a || b` for a possibly-absent string: `null`/`undefined` and the
empty string are falsy. -/
def jsOr (a : Option String) (b : String) : String :=
  match a with
  | some s => if s = "" then b else s
  | none => b

/-- JS `!x` for a possibly-absent string field (`undefined` and `""` are
falsy). -/
def jsFalsyStr (a : Option String) : Bool :=
  match a with
  | some s => s = ""
  | none => true

/-- JS `!x` for a possibly-absent numeric field (`undefined` and `0` are
falsy). -/
def jsFalsyNum (a : Option Int) : Bool :=
  match a with
  | some n => n = 0
  | none => true

/-- JS `now > x` where `x` may be `undefined` (`now > undefined` is false). -/
def jsGt (now : Int) (x : Option Int) : Bool :=
  match x with
  | some e => e < now
  | none => false

/-- JS `String.prototype.toLowerCase` (over the character list, so that it
evaluates inside the kernel). -/
def jsToLower (s : String) : String :=
  ⟨s.data.map Char.toLower⟩

/-- Worker for `jsSplitComma`. -/
def splitCommaAux : List Char → List Char → List String
  | [], acc => [⟨acc.reverse⟩]
  | c :: rest, acc =>
    if c = ',' then ⟨acc.reverse⟩ :: splitCommaAux rest [] else splitCommaAux rest (c :: acc)

/-- JS `s.split(',')`: always non-empty, `"".split(',') = [""]`. -/
def jsSplitComma (s : String) : List String :=
  splitCommaAux s.data []

/-- JS `String.prototype.trim`. -/
def jsTrim (s : String) : String :=
  ⟨((s.data.dropWhile Char.isWhitespace).reverse.dropWhile Char.isWhitespace).reverse⟩

/-- JS `s.substring(0, n)`. -/
def jsSubstring (s : String) (n : Nat) : String :=
  ⟨s.data.take n⟩

/-- JS `Math.min(...xs)`; the sources only apply it to non-empty arrays
(the guard `requests.length >= maxRequests` with `maxRequests ≥ 5` in every
configured category makes the list non-empty), so the `[]` default is
irrelevant. -/
def jsMinList : List Int → Int
  | [] => 0
  | h :: t => t.foldl min h

/-! ## Authorization utilities (`src/lib/auth-utils` via its callers)

`getAuthorizedAddresses` reads `process.env.ADMIN_ADDRESSES` and throws when
it is unset (or empty, since `if (!addresses)` also fires on `""`).  The
environment variable is modelled as an `Option String` argument and the
throw as `Except.error`. -/

def getAuthorizedAddresses (env : Option String) : Except Unit (List String) :=
  match env with
  | none => Except.error ()
  | some s => if s = "" then Except.error () else Except.ok ((jsSplitComma s).map jsTrim)

/-- `isAuthorizedAddress`: case-insensitive membership in the configured
allow-list; propagates the throw of `getAuthorizedAddresses`. -/
def isAuthorizedAddress (env : Option String) (address : String) : Except Unit Bool :=
  match getAuthorizedAddresses env with
  | Except.error e => Except.error e
  | Except.ok l => Except.ok (l.any (fun a => jsToLower a = jsToLower address))

/-- `AUTHORIZED_ADDRESSES_VERSION = process.env.ADMIN_ADDRESSES_VERSION || "v1.0"`. -/
def authorizedAddressesVersion (env : Option String) : String :=
  jsOr env "v1.0"

/-- The middleware allow-list:
`process.env.ADMIN_ADDRESSES?.split(',') || []` (no trimming, no throw;
an absent variable silently yields the empty list). -/
def middlewareAddresses (env : Option String) : List String :=
  match env with
  | none => []
  | some s => jsSplitComma s

/-! ## Rate limiter (`src/lib/rate-limiting.ts`) -/

/-- `RateLimitRecord` from `rate-limiting.ts`. -/
structure RateLimitRecord where
  requests : List Int
  lastCleanup : Int
deriving Repr, DecidableEq

/-- `RateLimitConfig`; `blockDurationMs` is optional in the source
(`blockDurationMs?`), with `windowMs` as fallback at use sites. -/
structure RateLimitConfig where
  maxRequests : Nat
  windowMs : Int
  blockDurationMs : Option Int
deriving Repr, DecidableEq

/-- The keys of the `RATE_LIMITS` table (`keyof typeof RATE_LIMITS`). -/
inductive Category where
  | adminPages
  | adminApiRead
  | adminApiWrite
  | adminExport
  | adminAuthFailures
  | adminLoginAccess
deriving Repr, DecidableEq

/-- The `RATE_LIMITS` table. -/
def rateLimits : Category → RateLimitConfig
  | .adminPages => ⟨120, 60000, some 60000⟩
  | .adminApiRead => ⟨60, 60000, some 120000⟩
  | .adminApiWrite => ⟨30, 60000, some 300000⟩
  | .adminExport => ⟨5, 60000, some 600000⟩
  | .adminAuthFailures => ⟨10, 900000, some 600000⟩
  | .adminLoginAccess => ⟨50, 60000, some 120000⟩

/-- The in-memory store `rateLimitStore : Map<string, RateLimitRecord>`;
note the JS map is keyed by `clientId` alone (not by category). -/
abbrev RLStore : Type := List (String × RateLimitRecord)

/-- Association-list lookup (first binding wins, as after `Map.set`). -/
def lookupRec : RLStore → String → Option RateLimitRecord
  | [], _ => none
  | (k, r) :: rest, id => if k = id then some r else lookupRec rest id

/-- `rateLimitStore.set(clientId, record)` / in-place record mutation:
the new binding shadows any previous one. -/
def setRec (st : RLStore) (id : String) (r : RateLimitRecord) : RLStore :=
  (id, r) :: st

/-- The stored request list of a client (empty when no record exists, which
matches the freshly created `{ requests: [], ... }` record). -/
def reqsOf (st : RLStore) (id : String) : List Int :=
  ((lookupRec st id).map RateLimitRecord.requests).getD []

/-- `record.lastCleanup`, defaulting to `now` for a fresh record. -/
def lastCleanupOf (st : RLStore) (id : String) (now : Int) : Int :=
  ((lookupRec st id).map RateLimitRecord.lastCleanup).getD now

/-- `record.requests.filter(timestamp => timestamp > windowStart)` with
`windowStart = now - config.windowMs`. -/
def filteredReqs (st : RLStore) (id : String) (cat : Category) (now : Int) : List Int :=
  (reqsOf st id).filter (fun t => now - (rateLimits cat).windowMs < t)

/-- `oldestRequest + (config.blockDurationMs || config.windowMs)` where
`oldestRequest = Math.min(...record.requests)` after the window filter. -/
def blockUntilOf (st : RLStore) (id : String) (cat : Category) (now : Int) : Int :=
  jsMinList (filteredReqs st id cat now) +
    (rateLimits cat).blockDurationMs.getD (rateLimits cat).windowMs

/-- The result record of `checkRateLimit`. -/
structure CheckResult where
  allowed : Bool
  remaining : Nat
  resetTime : Int
  retryAfter : Option Int
deriving Repr, DecidableEq

/-- `checkRateLimit` from `rate-limiting.ts` (lines 120-178).  The
probabilistic `cleanupRateLimits` call (`Math.random() < 0.01`) is omitted:
it only ever deletes records that have been idle for 24 hours and its
invocation is nondeterministic; it is modelled separately as
`cleanupRateLimits`.  `remaining` uses truncated `Nat` subtraction, which is
exactly `Math.max(0, maxRequests - requests.length)`. -/
def checkRateLimit (st : RLStore) (id : String) (cat : Category) (now : Int) :
    CheckResult × RLStore :=
  if (rateLimits cat).maxRequests ≤ (filteredReqs st id cat now).length then
    if now < blockUntilOf st id cat now then
      -- blocked: reject; the record keeps its filtered window (the filter
      -- assignment already happened), no timestamp is appended
      ({ allowed := false, remaining := 0, resetTime := blockUntilOf st id cat now,
         retryAfter := some ((blockUntilOf st id cat now - now + 999).ediv 1000) },
       setRec st id ⟨filteredReqs st id cat now, lastCleanupOf st id now⟩)
    else
      -- block period expired: `record.requests = []`, then append `now`
      ({ allowed := true, remaining := (rateLimits cat).maxRequests - 1,
         resetTime := now + (rateLimits cat).windowMs, retryAfter := none },
       setRec st id ⟨[now], now⟩)
  else
    -- under the limit: append `now` and accept
    ({ allowed := true,
       remaining := (rateLimits cat).maxRequests - ((filteredReqs st id cat now).length + 1),
       resetTime := now + (rateLimits cat).windowMs, retryAfter := none },
     setRec st id ⟨filteredReqs st id cat now ++ [now], now⟩)

/-- `cleanupRateLimits` (lines 106-115): drop records idle for over 24h. -/
def cleanupRateLimits (st : RLStore) (now : Int) : RLStore :=
  st.filter (fun p => now - p.2.lastCleanup ≤ 24 * 60 * 60 * 1000)

/-- `checkAuthFailureRateLimit(clientId)` =
`checkRateLimit(clientId, 'admin_auth_failures')` (the source narrows the
returned record to `allowed`/`remaining`/`retryAfter`; the extra `resetTime`
field carried here is never read by its callers). -/
def checkAuthFailureRateLimit (id : String) (st : RLStore) (now : Int) :
    CheckResult × RLStore :=
  checkRateLimit st id .adminAuthFailures now

/-- In-window `admin_auth_failures` request count of a client. -/
def authWindowCount (st : RLStore) (id : String) (now : Int) : Nat :=
  (filteredReqs st id .adminAuthFailures now).length

/-- `getClientId(request)` (lines 68-78): the client fingerprint derived
from the `x-forwarded-for`, `x-real-ip`, `cf-connecting-ip` and `user-agent`
headers, each modelled as `Option String` (absent header = `none`). -/
def getClientId (fwd realIp cfIp userAgent : Option String) : String :=
  jsOr (fwd.map (fun s => ((jsSplitComma s).headD ""))) (jsOr realIp (jsOr cfIp "unknown")) ++
    ":" ++ jsSubstring (jsOr userAgent "unknown") 20

/-! ## Admin session data and cookie options -/

/-- The parse result of the `admin-session` cookie value.  `JSON.parse` can
yield an object with any subset of the `AdminSession` fields, so every field
is optional here; a field that is `none` is `undefined` in JS. -/
structure RawSession where
  address : Option String
  issuedAt : Option Int
  expiresAt : Option Int
  addressVersion : Option String
deriving Repr, DecidableEq

/-- State of the `admin-session` cookie as seen by a validator:
absent (or empty-valued, since `!sessionCookie?.value` also fires on `""`),
present but not valid JSON, or parsed. -/
inductive Cookie where
  | missing
  | badJson
  | parsed (s : RawSession)
deriving Repr, DecidableEq

/-- The session object minted by `verifyAdminSignature` on success. -/
structure AdminSessionFull where
  address : String
  issuedAt : Int
  expiresAt : Int
  addressVersion : String
deriving Repr, DecidableEq

/-- `SECURE_COOKIE_OPTIONS` attribute set.  `expires` is absent in the
constant itself and only set by the fixed `clearAdminSession`. -/
structure CookieOpts where
  httpOnly : Bool
  secure : Bool
  sameSite : String
  maxAge : Int
  path : String
  domain : Option String
  expires : Option Int
deriving Repr, DecidableEq

/-- `SECURE_COOKIE_OPTIONS` as a function of `process.env.NODE_ENV` and
`process.env.NEXT_PUBLIC_URL` (the `domain` attribute is only added in
production, stripping the `https://` prefix from the public URL). -/
def secureCookieOptions (nodeEnv : String) (publicUrl : Option String) : CookieOpts :=
  { httpOnly := true
    secure := nodeEnv = "production"
    sameSite := "strict"
    maxAge := 24 * 60 * 60
    path := "/"
    domain := if nodeEnv = "production" then publicUrl.map (fun u => u.replace "https://" "") else none
    expires := none }

/-- The options of the cookie-clearing `set` call in the fixed
`clearAdminSession`:
`cookieStore.set('admin-session', '', { ...SECURE_COOKIE_OPTIONS, maxAge: 0, expires: new Date(0) })`. -/
def clearDeleteOptions (nodeEnv : String) (publicUrl : Option String) : CookieOpts :=
  { secureCookieOptions nodeEnv publicUrl with maxAge := 0, expires := some 0 }

/-- The legacy `clearAdminSession` in `src/app/admin/actions/auth.ts` clears
the cookie with a bare `cookieStore.delete('admin-session')`: no options are
passed with the deletion. -/
def legacyClearDeleteOptions : Option CookieOpts := none

/-- The attributes that decide whether a client honours a deletion:
path, domain, secure, sameSite. -/
def cookieAttrs (o : CookieOpts) : String × Option String × Bool × String :=
  (o.path, o.domain, o.secure, o.sameSite)

/-! ## Session validators -/

/-- `!session.address || !session.expiresAt || !session.issuedAt`
(the malformed-structure guard, shared by `validateAdminSession` and the
middleware). -/
def structFalsy (s : RawSession) : Bool :=
  jsFalsyStr s.address || jsFalsyNum s.expiresAt || jsFalsyNum s.issuedAt

/-- `!session.addressVersion || session.addressVersion !== AUTHORIZED_ADDRESSES_VERSION`. -/
def versionBad (s : RawSession) (ver : String) : Bool :=
  jsFalsyStr s.addressVersion || decide (s.addressVersion ≠ some ver)

/-- The result record of the session validators. -/
structure ValidationOutcome where
  isValid : Bool
  session : Option RawSession
  error : Option String
deriving Repr, DecidableEq

/-- `validateAdminSession` from the admin-auth module (the `read()` used by
`withAdminAuth`).  The second component records whether
`cookieStore.delete('admin-session')` was executed on that path.  The
`s.address = none` branch is the `catch` of the surrounding `try` (JS would
throw on `undefined.toLowerCase()`); it is unreachable after the structure
guard.  An `isAuthorizedAddress` throw (absent `ADMIN_ADDRESSES`) is likewise
caught and mapped to the generic failure. -/
def validateAdminSession (cookie : Cookie) (envAddrs : Option String) (ver : String)
    (now : Int) : ValidationOutcome × Bool :=
  match cookie with
  | .missing => (⟨false, none, some "No admin session found"⟩, false)
  | .badJson => (⟨false, none, some "Invalid session format"⟩, false)
  | .parsed s =>
    if structFalsy s then
      (⟨false, none, some "Malformed session data"⟩, false)
    else if versionBad s ver then
      (⟨false, none, some "Session invalidated due to security update"⟩, true)
    else if jsGt now s.expiresAt then
      (⟨false, none, some "Session expired"⟩, true)
    else
      match s.address with
      | none => (⟨false, none, some "Session validation failed"⟩, false)
      | some a =>
        match isAuthorizedAddress envAddrs a with
        | Except.error _ => (⟨false, none, some "Session validation failed"⟩, false)
        | Except.ok false => (⟨false, none, some "Address no longer authorized"⟩, true)
        | Except.ok true => (⟨true, some s, none⟩, false)

/-- `validateAdminSessionMiddleware` from `src/middleware.ts`: same checks,
but no cookie deletion anywhere and the allow-list is the module-level
`AUTHORIZED_ADDRESSES` (absent env ⇒ `[]`, no trimming, no throw). -/
def validateAdminSessionMiddleware (cookie : Cookie) (envAddrs : Option String)
    (ver : String) (now : Int) : ValidationOutcome :=
  match cookie with
  | .missing => ⟨false, none, some "No admin session found"⟩
  | .badJson => ⟨false, none, some "Invalid session format"⟩
  | .parsed s =>
    if structFalsy s then
      ⟨false, none, some "Malformed session data"⟩
    else if versionBad s ver then
      ⟨false, none, some "Session invalidated due to security update"⟩
    else if jsGt now s.expiresAt then
      ⟨false, none, some "Session expired"⟩
    else
      match s.address with
      | none => ⟨false, none, some "Session validation failed"⟩
      | some a =>
        if (middlewareAddresses envAddrs).any (fun x => jsToLower x = jsToLower a) then
          ⟨true, some s, none⟩
        else
          ⟨false, none, some "Address no longer authorized"⟩

/-- `getAdminSession` (the server-action `read()`, lines 210-238 of the
fixed admin actions module): checks only cookie presence, JSON
well-formedness, expiry and current allow-list membership — it contains no
`addressVersion` check and no structure guard.  The second component records
whether `clearAdminSession` was invoked (which deletes the cookie).  A
missing `address` makes `isAuthorizedAddress` throw on
`undefined.toLowerCase()`, caught by the surrounding `try` without
deletion. -/
def getAdminSession (cookie : Cookie) (envAddrs : Option String) (now : Int) :
    Option RawSession × Bool :=
  match cookie with
  | .missing => (none, false)
  | .badJson => (none, false)
  | .parsed s =>
    if jsGt now s.expiresAt then
      (none, true)
    else
      match s.address with
      | none => (none, false)
      | some a =>
        match isAuthorizedAddress envAddrs a with
        | Except.error _ => (none, false)
        | Except.ok false => (none, true)
        | Except.ok true => (some s, false)

/-! ## verifyAdminSignature (admin actions module)

The `viem` `verifyMessage` call together with the surrounding
signature-normalization block is modelled by an oracle argument
`oracle : String → String → String → Except Unit Bool`: `Except.error` is the
thrown-exception path of the inner `try` (malformed signature), `ok b` the
boolean verification outcome.  Headers and environment are explicit
arguments; `ver` is the module-level `AUTHORIZED_ADDRESSES_VERSION`. -/

/-- `clientIp = forwarded?.split(',')[0] || realIp || cfConnectingIp || 'unknown'`. -/
def clientIpFrom (fwd realIp cfIp : Option String) : String :=
  jsOr (fwd.map (fun s => ((jsSplitComma s).headD ""))) (jsOr realIp (jsOr cfIp "unknown"))

/-- The client ip recomputed inside the outer `catch`:
`forwarded?.split(',')[0] || 'unknown'`. -/
def catchIpFrom (fwd : Option String) : String :=
  jsOr (fwd.map (fun s => ((jsSplitComma s).headD ""))) "unknown"

/-- The rate-limited error message (`waitMinutes` from `retryAfter`). -/
def tooManyAttemptsMessage (ra : Option Int) : String :=
  let waitMinutes : Int :=
    match ra with
    | some r => if r = 0 then 10 else (r + 59).ediv 60
    | none => 10
  "Too many failed authentication attempts. Please try again in " ++
    toString waitMinutes ++ " minutes."

/-- The result of `verifyAdminSignature`. -/
structure VerifyResult where
  success : Bool
  session : Option AdminSessionFull
  error : Option String
deriving Repr, DecidableEq

/-- `verifyAdminSignature(address, signature, message)`.  Returned with the
final rate-limit store.  Source order: authorization check first (an
unauthorized address returns before any rate-limit call); then the
auth-failure pre-check (which, being `checkRateLimit`, records the request);
then signature verification, whose failure paths call
`checkAuthFailureRateLimit` once more; the success path mints a session and
performs no further rate-limit call.  A throw of `isAuthorizedAddress`
(absent `ADMIN_ADDRESSES`) lands in the outer `catch`, which counts a
failure against the `forwarded`-derived ip. -/
def verifyAdminSignature (oracle : String → String → String → Except Unit Bool)
    (envAddrs : Option String) (ver : String) (fwd realIp cfIp : Option String)
    (st : RLStore) (now : Int) (address signature message : String) :
    VerifyResult × RLStore :=
  match isAuthorizedAddress envAddrs address with
  | Except.error _ =>
    ({ success := false, session := none,
       error := some "Authentication failed due to server error" },
     (checkAuthFailureRateLimit (catchIpFrom fwd) st now).2)
  | Except.ok false =>
    ({ success := false, session := none,
       error := some "Address not authorized for admin access" }, st)
  | Except.ok true =>
    let ip := clientIpFrom fwd realIp cfIp
    let p1 := checkAuthFailureRateLimit ip st now
    if p1.1.allowed = false then
      ({ success := false, session := none,
         error := some (tooManyAttemptsMessage p1.1.retryAfter) }, p1.2)
    else
      match oracle address signature message with
      | Except.error _ =>
        ({ success := false, session := none, error := some "Invalid signature format" },
         (checkAuthFailureRateLimit ip p1.2 now).2)
      | Except.ok false =>
        ({ success := false, session := none, error := some "Invalid signature" },
         (checkAuthFailureRateLimit ip p1.2 now).2)
      | Except.ok true =>
        ({ success := true,
           session := some { address := address, issuedAt := now,
                             expiresAt := now + 24 * 60 * 60 * 1000, addressVersion := ver },
           error := none }, p1.2)

/-! ## Traces of rate-limiter calls -/

/-- Run `checkRateLimit` for one client and category at a list of
successive times, threading the store. -/
def runCalls (cat : Category) (id : String) (st : RLStore) :
    List Int → List CheckResult × RLStore
  | [] => ([], st)
  | t :: ts =>
    let p := checkRateLimit st id cat t
    let q := runCalls cat id p.2 ts
    (p.1 :: q.1, q.2)

/-! ## Specification-side characterizations of the session readers

These four functions restate, in one boolean expression each, when the two
`read()` implementations accept a cookie and when they delete it.  They are
the specification side of the amended claim C6 and are compared against the
source-derived `validateAdminSession` and `getAdminSession` above. -/

/-- When `validateAdminSession` accepts: parsed cookie, structurally sound,
version tag present and current, unexpired, and the address passes the
(throwing) allow-list check. -/
def readValidSpec (cookie : Cookie) (envAddrs : Option String) (ver : String)
    (now : Int) : Bool :=
  match cookie with
  | .parsed s =>
    !structFalsy s && !versionBad s ver && !jsGt now s.expiresAt &&
      (match s.address with
       | some a => (match isAuthorizedAddress envAddrs a with
         | Except.ok true => true
         | _ => false)
       | none => false)
  | _ => false

/-- When `validateAdminSession` deletes the cookie: only on the
version-mismatch, expired, and no-longer-authorized paths — never on a
missing cookie, malformed JSON, malformed structure, or an
`isAuthorizedAddress` throw. -/
def readDeletesSpec (cookie : Cookie) (envAddrs : Option String) (ver : String)
    (now : Int) : Bool :=
  match cookie with
  | .parsed s =>
    if structFalsy s then false
    else if versionBad s ver then true
    else if jsGt now s.expiresAt then true
    else
      match s.address with
      | some a => (match isAuthorizedAddress envAddrs a with
        | Except.ok false => true
        | _ => false)
      | none => false
  | _ => false

/-- When `getAdminSession` returns a session: parsed, unexpired, and the
address passes the allow-list check — no version or structure check at
all. -/
def getValidSpec (cookie : Cookie) (envAddrs : Option String) (now : Int) : Bool :=
  match cookie with
  | .parsed s =>
    !jsGt now s.expiresAt &&
      (match s.address with
       | some a => (match isAuthorizedAddress envAddrs a with
         | Except.ok true => true
         | _ => false)
       | none => false)
  | _ => false

/-- When `getAdminSession` deletes the cookie: expired or no longer
authorized. -/
def getDeletesSpec (cookie : Cookie) (envAddrs : Option String) (now : Int) : Bool :=
  match cookie with
  | .parsed s =>
    if jsGt now s.expiresAt then true
    else
      match s.address with
      | some a => (match isAuthorizedAddress envAddrs a with
        | Except.ok false => true
        | _ => false)
      | none => false
  | _ => false

/-! ## Basic lemmas about the store and the limiter -/

theorem lookupRec_setRec (st : RLStore) (id : String) (r : RateLimitRecord) :
    lookupRec (setRec st id r) id = some r := by
  simp [lookupRec, setRec]

theorem reqsOf_setRec (st : RLStore) (id : String) (r : RateLimitRecord) :
    reqsOf (setRec st id r) id = r.requests := by
  simp [reqsOf, lookupRec_setRec]

theorem filteredReqs_setRec (st : RLStore) (id : String) (cat : Category) (now : Int)
    (l : List Int) (lc : Int) :
    filteredReqs (setRec st id ⟨l, lc⟩) id cat now =
      l.filter (fun t => now - (rateLimits cat).windowMs < t) := by
  simp [filteredReqs, reqsOf_setRec]

/-- Re-filtering an already windowed list with the same bound is the
identity. -/
theorem filter_window_idem (l : List Int) (b : Int) :
    (l.filter (fun t => b < t)).filter (fun t => b < t) = l.filter (fun t => b < t) := by
  apply List.filter_eq_self.mpr
  intro a ha
  exact (List.mem_filter.mp ha).2

/-- Accepting branch of `checkRateLimit`: strictly below the limit. -/
theorem checkRateLimit_accept (st : RLStore) (id : String) (cat : Category) (now : Int)
    (h : (filteredReqs st id cat now).length < (rateLimits cat).maxRequests) :
    checkRateLimit st id cat now =
      ({ allowed := true,
         remaining := (rateLimits cat).maxRequests - ((filteredReqs st id cat now).length + 1),
         resetTime := now + (rateLimits cat).windowMs, retryAfter := none },
       setRec st id ⟨filteredReqs st id cat now ++ [now], now⟩) := by
  unfold checkRateLimit
  rw [if_neg (by omega)]

/-- Rejecting branch: at the limit and before the computed block expiry. -/
theorem checkRateLimit_blocked (st : RLStore) (id : String) (cat : Category) (now : Int)
    (h1 : (rateLimits cat).maxRequests ≤ (filteredReqs st id cat now).length)
    (h2 : now < blockUntilOf st id cat now) :
    checkRateLimit st id cat now =
      ({ allowed := false, remaining := 0, resetTime := blockUntilOf st id cat now,
         retryAfter := some ((blockUntilOf st id cat now - now + 999).ediv 1000) },
       setRec st id ⟨filteredReqs st id cat now, lastCleanupOf st id now⟩) := by
  unfold checkRateLimit
  rw [if_pos h1, if_pos h2]

/-- Reset branch: at the limit but the block has expired; the window is
reset to the single new timestamp. -/
theorem checkRateLimit_reset (st : RLStore) (id : String) (cat : Category) (now : Int)
    (h1 : (rateLimits cat).maxRequests ≤ (filteredReqs st id cat now).length)
    (h2 : blockUntilOf st id cat now ≤ now) :
    checkRateLimit st id cat now =
      ({ allowed := true, remaining := (rateLimits cat).maxRequests - 1,
         resetTime := now + (rateLimits cat).windowMs, retryAfter := none },
       setRec st id ⟨[now], now⟩) := by
  unfold checkRateLimit
  rw [if_pos h1, if_neg (by omega)]

/-- When strictly below the auth-failure limit, the pre-check accepts and
the in-window count (sampled at the same instant) grows by one. -/
theorem authWindowCount_accept (st : RLStore) (id : String) (now : Int)
    (h : authWindowCount st id now < 10) :
    (checkRateLimit st id .adminAuthFailures now).1.allowed = true ∧
      authWindowCount (checkRateLimit st id .adminAuthFailures now).2 id now =
        authWindowCount st id now + 1 := by
  have hmax : (rateLimits .adminAuthFailures).maxRequests = 10 := rfl
  have hacc := checkRateLimit_accept st id .adminAuthFailures now (by rw [hmax]; exact h)
  rw [hacc]
  refine ⟨rfl, ?_⟩
  show (filteredReqs (setRec st id _) id .adminAuthFailures now).length = _
  rw [filteredReqs_setRec]
  rw [List.filter_append]
  have hidem : (filteredReqs st id .adminAuthFailures now).filter
      (fun t => now - (rateLimits .adminAuthFailures).windowMs < t) =
      filteredReqs st id .adminAuthFailures now := by
    unfold filteredReqs
    exact filter_window_idem _ _
  rw [hidem]
  have hw : (rateLimits Category.adminAuthFailures).windowMs = 900000 := rfl
  have hnow : (List.filter (fun t => decide (now - (rateLimits .adminAuthFailures).windowMs < t)) [now]) = [now] := by
    simp only [List.filter]
    rw [decide_eq_true (by rw [hw]; omega : now - (rateLimits Category.adminAuthFailures).windowMs < now)]
  rw [hnow, List.length_append]
  rfl

/-- `jsMinList` of a non-empty list is one of its elements. -/
theorem foldl_min_mem (t : List Int) : ∀ h : Int, t.foldl min h ∈ h :: t := by
  induction t with
  | nil => intro h; simp [List.foldl]
  | cons a t ih =>
    intro h
    have hmem := ih (min h a)
    show t.foldl min (min h a) ∈ h :: a :: t
    rcases List.mem_cons.mp hmem with h1 | h1
    · rw [h1]
      rcases le_total h a with hha | hha
      · rw [min_eq_left hha]; exact List.mem_cons_self _ _
      · rw [min_eq_right hha]
        exact List.mem_cons_of_mem _ (List.mem_cons_self _ _)
    · exact List.mem_cons_of_mem _ (List.mem_cons_of_mem _ h1)

theorem jsMinList_mem (l : List Int) (h : l ≠ []) : jsMinList l ∈ l := by
  cases l with
  | nil => exact absurd rfl h
  | cons a t => exact foldl_min_mem t a

/-- `runCalls` distributes over list append. -/
theorem runCalls_append (cat : Category) (id : String) :
    ∀ (l₁ l₂ : List Int) (st : RLStore),
      runCalls cat id st (l₁ ++ l₂) =
        ((runCalls cat id st l₁).1 ++ (runCalls cat id (runCalls cat id st l₁).2 l₂).1,
         (runCalls cat id (runCalls cat id st l₁).2 l₂).2) := by
  intro l₁
  induction l₁ with
  | nil => intro l₂ st; simp [runCalls]
  | cons t ts ih => intro l₂ st; simp [runCalls, ih]

/-- Invariant: starting from a record holding `acc`, a sorted run of calls
that (together with `acc`) all fit in one window and do not exceed the
limit is entirely accepted, and afterwards the record holds `acc ++ ts`. -/
theorem runCalls_under_limit (cat : Category) (id : String) :
    ∀ (ts acc : List Int) (st : RLStore),
      reqsOf st id = acc →
      acc.length + ts.length ≤ (rateLimits cat).maxRequests →
      (∀ x ∈ acc, ∀ y ∈ ts, x ≤ y) →
      List.Pairwise (· ≤ ·) ts →
      (∀ x ∈ acc ++ ts, ∀ y ∈ acc ++ ts, y - x < (rateLimits cat).windowMs) →
      ((runCalls cat id st ts).1.map CheckResult.allowed = List.replicate ts.length true ∧
       reqsOf (runCalls cat id st ts).2 id = acc ++ ts) := by
  intro ts
  induction ts with
  | nil =>
    intro acc st hacc _ _ _ _
    simp [runCalls, hacc]
  | cons t ts ih =>
    intro acc st hacc hle horder hpair hwin
    have hfilter : filteredReqs st id cat t = acc := by
      unfold filteredReqs
      rw [hacc]
      apply List.filter_eq_self.mpr
      intro x hx
      have hxy := hwin x (List.mem_append_left _ hx) t
        (List.mem_append_right _ (List.mem_cons_self _ _))
      exact decide_eq_true (by omega)
    have hlen : (filteredReqs st id cat t).length < (rateLimits cat).maxRequests := by
      rw [hfilter]; simp at hle; omega
    have hstep := checkRateLimit_accept st id cat t hlen
    have hreq' : reqsOf (checkRateLimit st id cat t).2 id = acc ++ [t] := by
      rw [hstep, reqsOf_setRec, hfilter]
    have horder' : ∀ x ∈ acc ++ [t], ∀ y ∈ ts, x ≤ y := by
      intro x hx y hy
      rcases List.mem_append.mp hx with hx1 | hx1
      · exact horder x hx1 y (List.mem_cons_of_mem _ hy)
      · have : x = t := by simpa using hx1
        subst this
        exact (List.pairwise_cons.mp hpair).1 y hy
    have hwin' : ∀ x ∈ (acc ++ [t]) ++ ts, ∀ y ∈ (acc ++ [t]) ++ ts,
        y - x < (rateLimits cat).windowMs := by
      intro x hx y hy
      apply hwin <;> simp only [List.mem_append, List.mem_cons, List.mem_singleton] at hx hy ⊢ <;>
        tauto
    have hrec := ih (acc ++ [t]) (checkRateLimit st id cat t).2 hreq'
      (by simp at hle ⊢; omega) horder' (List.pairwise_cons.mp hpair).2 hwin'
    constructor
    · show (checkRateLimit st id cat t).1.allowed ::
        (runCalls cat id (checkRateLimit st id cat t).2 ts).1.map CheckResult.allowed = _
      rw [hrec.1, hstep]
      simp [List.replicate_succ]
    · show reqsOf (runCalls cat id (checkRateLimit st id cat t).2 ts).2 id = _
      rw [hrec.2]
      simp

/-- Every configured category admits at least one request. -/
theorem one_le_maxRequests (cat : Category) : 1 ≤ (rateLimits cat).maxRequests := by
  cases cat <;> decide

/-- `verifyAdminSignature` only succeeds when the address is authorized and
the signature oracle accepts. -/
theorem verify_success_requires_oracle
    (oracle : String → String → String → Except Unit Bool)
    (envAddrs : Option String) (ver : String) (fwd realIp cfIp : Option String)
    (st : RLStore) (now : Int) (address sg msg : String)
    (h : (verifyAdminSignature oracle envAddrs ver fwd realIp cfIp st now address sg msg).1.success
      = true) :
    isAuthorizedAddress envAddrs address = Except.ok true ∧
      oracle address sg msg = Except.ok true := by
  unfold verifyAdminSignature at h
  cases hauth : isAuthorizedAddress envAddrs address with
  | error e => rw [hauth] at h; simp at h
  | ok b =>
    cases b with
    | false => rw [hauth] at h; simp at h
    | true =>
      rw [hauth] at h
      simp only at h
      by_cases hallow :
          (checkAuthFailureRateLimit (clientIpFrom fwd realIp cfIp) st now).1.allowed = false
      · rw [if_pos hallow] at h; simp at h
      · rw [if_neg hallow] at h
        cases horacle : oracle address sg msg with
        | error e => rw [horacle] at h; simp at h
        | ok b2 =>
          cases b2 with
          | false => rw [horacle] at h; simp at h
          | true => exact ⟨rfl, rfl⟩

/-! ## Claims -/

/-- Claim C1.  The claim states that a session whose `addressVersion`
differs from the current `AUTHORIZED_ADDRESSES_VERSION` is never returned as
valid by `getAdminSession` or by the middleware validation.  The code
violates this: `getAdminSession` performs no `addressVersion` check at all,
so at the concrete cookie below — unexpired, authorized address, but stale
version tag `v0.9` against current version `v1.0` — it returns the session
as valid (while the middleware validator, shown alongside, does reject the
very same cookie). -/
theorem C1_getAdminSession_ignores_stale_version :
    getAdminSession (Cookie.parsed ⟨some "0xabc", some 5, some 99999999, some "v0.9"⟩)
        (some "0xabc") 1000
      = (some ⟨some "0xabc", some 5, some 99999999, some "v0.9"⟩, false) ∧
    (some "v0.9" : Option String) ≠ some (authorizedAddressesVersion (some "v1.0")) ∧
    (validateAdminSessionMiddleware
        (Cookie.parsed ⟨some "0xabc", some 5, some 99999999, some "v0.9"⟩)
        (some "0xabc") (authorizedAddressesVersion (some "v1.0")) 1000).isValid = false := by
  decide

/-- Claim C2.  The claim states that a successful `verifyAdminSignature`
call leaves the caller's `admin_auth_failures` record unchanged.  The code
violates this: the pre-check `checkAuthFailureRateLimit(clientIp)` is a full
`checkRateLimit` call and records the request even though the login then
succeeds — below, the in-window count grows from 0 to 1 on a successful
login. -/
theorem C2_successful_login_consumes_slot :
    (verifyAdminSignature (fun _ _ _ => Except.ok true) (some "0xabc") "v1.0"
        none none none [] 0 "0xabc" "0xsig" "msg").1.success = true ∧
    authWindowCount ([] : RLStore) "unknown" 0 = 0 ∧
    authWindowCount
      (verifyAdminSignature (fun _ _ _ => Except.ok true) (some "0xabc") "v1.0"
        none none none [] 0 "0xabc" "0xsig" "msg").2 "unknown" 0 = 1 := by
  decide

/-- Claim C3.  An address that is not on the allow-list is rejected
immediately with the store untouched (no auth-failure slot consumed), while
a failed signature verification for an authorized address (below the limit)
is rejected and consumes auth-failure slots — the pre-check and the failure
branch each record one, so the in-window count grows by two. -/
theorem C3_unauthorized_no_slot_failed_signature_consumes :
    ∀ (oracle : String → String → String → Except Unit Bool)
      (envAddrs : Option String) (ver : String) (fwd realIp cfIp : Option String)
      (st : RLStore) (now : Int) (address sg msg : String),
      (isAuthorizedAddress envAddrs address = Except.ok false →
        verifyAdminSignature oracle envAddrs ver fwd realIp cfIp st now address sg msg =
          ({ success := false, session := none,
             error := some "Address not authorized for admin access" }, st)) ∧
      (isAuthorizedAddress envAddrs address = Except.ok true →
       oracle address sg msg = Except.ok false →
       authWindowCount st (clientIpFrom fwd realIp cfIp) now + 1 < 10 →
        ((verifyAdminSignature oracle envAddrs ver fwd realIp cfIp st now address sg msg).1.success
            = false ∧
         authWindowCount
             (verifyAdminSignature oracle envAddrs ver fwd realIp cfIp st now address sg msg).2
             (clientIpFrom fwd realIp cfIp) now =
           authWindowCount st (clientIpFrom fwd realIp cfIp) now + 2)) := by
  intro oracle envAddrs ver fwd realIp cfIp st now address sg msg
  constructor
  · intro h
    simp only [verifyAdminSignature, h]
  · intro hauth horacle hcount
    have hpre := authWindowCount_accept st (clientIpFrom fwd realIp cfIp) now (by omega)
    have hpre2 := authWindowCount_accept
      (checkRateLimit st (clientIpFrom fwd realIp cfIp) .adminAuthFailures now).2
      (clientIpFrom fwd realIp cfIp) now (by rw [hpre.2]; omega)
    simp only [verifyAdminSignature, hauth, checkAuthFailureRateLimit, horacle, hpre.1]
    simp only [Bool.true_eq_false, if_false]
    exact ⟨trivial, by rw [hpre2.2, hpre.2]⟩

/-- Witness for C3: both hypotheses are satisfiable — an unauthorized
address leaves the empty store empty, and a failed signature for an
authorized address raises the count from 0 to 2. -/
theorem C3_witness :
    (verifyAdminSignature (fun _ _ _ => Except.ok true) (some "0xabc") "v1.0" none none none
        [] 0 "0xother" "s" "m" =
      ({ success := false, session := none,
         error := some "Address not authorized for admin access" }, ([] : RLStore))) ∧
    ((verifyAdminSignature (fun _ _ _ => Except.ok false) (some "0xabc") "v1.0" none none none
        [] 0 "0xabc" "s" "m").1.success = false ∧
     authWindowCount
         (verifyAdminSignature (fun _ _ _ => Except.ok false) (some "0xabc") "v1.0"
           none none none [] 0 "0xabc" "s" "m").2 "unknown" 0 =
       authWindowCount ([] : RLStore) "unknown" 0 + 2) := by
  constructor
  · exact (C3_unauthorized_no_slot_failed_signature_consumes
      (fun _ _ _ => Except.ok true) (some "0xabc") "v1.0" none none none
      [] 0 "0xother" "s" "m").1 rfl
  · exact (C3_unauthorized_no_slot_failed_signature_consumes
      (fun _ _ _ => Except.ok false) (some "0xabc") "v1.0" none none none
      [] 0 "0xabc" "s" "m").2 rfl rfl (by decide)

/-- `Math.ceil` of a positive millisecond difference divided by 1000 is at
least one second. -/
theorem one_le_ceil_div_1000 (d : Int) (h : 1 ≤ d) : 1 ≤ (d + 999).ediv 1000 :=
  (Int.le_ediv_iff_mul_le (by norm_num)).mpr (by omega)

/-- Claim C4 counterexample.  For `admin_auth_failures`
(`blockDurationMs = 600000 < windowMs = 900000`) eleven calls that all lie
within one window — ten at time 0 and one at 700000 — are ALL accepted: the
`(maxRequests+1)`th call is not rejected, because by then the computed block
expiry `oldest + blockDurationMs = 600000` has already passed and the window
is reset.  The other conjuncts verify that the trace satisfies the claim's
premises (same window, chronological order, exactly `maxRequests + 1`
calls). -/
theorem C4_counterexample_eleventh_call_accepted :
    ((runCalls .adminAuthFailures "f" [] (List.replicate 10 0 ++ [700000])).1.map
        CheckResult.allowed = List.replicate 11 true) ∧
    (∀ x ∈ List.replicate 10 (0 : Int) ++ [700000],
     ∀ y ∈ List.replicate 10 (0 : Int) ++ [700000],
       y - x < (rateLimits Category.adminAuthFailures).windowMs) ∧
    List.Pairwise (· ≤ ·) (List.replicate 10 (0 : Int) ++ [700000]) ∧
    (List.replicate 10 (0 : Int) ++ [700000]).length =
      (rateLimits Category.adminAuthFailures).maxRequests + 1 := by
  exact ⟨by decide, by decide, by decide, by decide⟩

/-- Claim C4, amended.  For a fresh client and any category whose
`blockDurationMs` is at least `windowMs` (every category except
`admin_auth_failures`), a chronological trace of `maxRequests + 1` calls
within one window has exactly the first `maxRequests` accepted and the last
rejected with `retryAfter ≥ 1`. -/
theorem C4_amended_exact_limit (cat : Category) (id : String) (ts : List Int)
    (hsort : List.Pairwise (· ≤ ·) ts)
    (hwin : ∀ x ∈ ts, ∀ y ∈ ts, y - x < (rateLimits cat).windowMs)
    (hlen : ts.length = (rateLimits cat).maxRequests + 1)
    (hdur : (rateLimits cat).windowMs ≤
      (rateLimits cat).blockDurationMs.getD (rateLimits cat).windowMs) :
    (runCalls cat id [] ts).1.map CheckResult.allowed =
        List.replicate (rateLimits cat).maxRequests true ++ [false] ∧
    ∃ r, (runCalls cat id [] ts).1.getLast? = some r ∧
      ∃ k, r.retryAfter = some k ∧ 1 ≤ k := by
  have hne : ts ≠ [] := by
    intro h; rw [h] at hlen; simp at hlen
  rcases List.eq_nil_or_concat ts with h1 | ⟨front, tlast, h1⟩
  · exact absurd h1 hne
  rw [List.concat_eq_append] at h1
  subst h1
  have hflen : front.length = (rateLimits cat).maxRequests := by
    simp [List.length_append] at hlen; omega
  have hfr := runCalls_under_limit cat id front [] [] rfl
    (by simp [hflen])
    (by intro x hx; exact absurd hx (List.not_mem_nil x))
    ((List.pairwise_append.mp hsort).1)
    (by
      intro x hx y hy
      simp only [List.nil_append] at hx hy
      exact hwin x (List.mem_append_left _ hx) y (List.mem_append_left _ hy))
  rcases hfr with ⟨hmap, hreq⟩
  have hfilter : filteredReqs (runCalls cat id [] front).2 id cat tlast = front := by
    unfold filteredReqs
    rw [hreq]
    simp only [List.nil_append]
    apply List.filter_eq_self.mpr
    intro x hx
    have := hwin x (List.mem_append_left _ hx) tlast
      (List.mem_append_right _ (List.mem_cons_self _ _))
    exact decide_eq_true (by omega)
  have hge : (rateLimits cat).maxRequests ≤
      (filteredReqs (runCalls cat id [] front).2 id cat tlast).length := by
    rw [hfilter, hflen]
  have hfrne : front ≠ [] := by
    intro h
    rw [h] at hflen
    have := one_le_maxRequests cat
    simp at hflen
    omega
  have hminmem : jsMinList front ∈ front := jsMinList_mem front hfrne
  have hblock : tlast < blockUntilOf (runCalls cat id [] front).2 id cat tlast := by
    unfold blockUntilOf
    rw [hfilter]
    have := hwin (jsMinList front) (List.mem_append_left _ hminmem) tlast
      (List.mem_append_right _ (List.mem_cons_self _ _))
    omega
  have hlast := checkRateLimit_blocked (runCalls cat id [] front).2 id cat tlast hge hblock
  have hsingle : (runCalls cat id (runCalls cat id [] front).2 [tlast]).1 =
      [(checkRateLimit (runCalls cat id [] front).2 id cat tlast).1] := by
    simp [runCalls]
  rw [runCalls_append]
  constructor
  · rw [List.map_append, hmap, hsingle, hlast, hflen]
    rfl
  · refine ⟨(checkRateLimit (runCalls cat id [] front).2 id cat tlast).1, ?_, ?_⟩
    · rw [hsingle, List.getLast?_concat]
    · rw [hlast]
      exact ⟨_, rfl, one_le_ceil_div_1000 _ (by omega)⟩

/-- Witness for the amended C4 at the `admin_export` category: six calls at
time 0 give five acceptances and a rejection with positive `retryAfter`. -/
theorem C4_amended_witness :
    ((runCalls .adminExport "f" [] [0, 0, 0, 0, 0, 0]).1.map CheckResult.allowed =
        List.replicate (rateLimits Category.adminExport).maxRequests true ++ [false]) ∧
    ∃ r, (runCalls .adminExport "f" [] [0, 0, 0, 0, 0, 0]).1.getLast? = some r ∧
      ∃ k, r.retryAfter = some k ∧ 1 ≤ k :=
  C4_amended_exact_limit .adminExport "f" [0, 0, 0, 0, 0, 0] (by decide) (by decide)
    (by decide) (by decide)

/-- Claim C5 counterexample.  Ten `admin_auth_failures` requests at time 0
fill the window; the call at time T = 1 is rejected.  The claim says every
call strictly before `T + blockDurationMs = 600001` is rejected and that
blocking sets the expiry to `now + blockDurationMs`.  In fact the rejected
call reports `resetTime = 600000 = oldest + blockDurationMs` (not
`1 + 600000`), and the call at time 600000 — strictly before 600001 — is
accepted. -/
theorem C5_counterexample_block_not_anchored_at_rejection :
    ((runCalls .adminAuthFailures "f" [] (List.replicate 10 0 ++ [1, 600000])).1.map
        CheckResult.allowed = List.replicate 10 true ++ [false, true]) ∧
    (((runCalls .adminAuthFailures "f" [] (List.replicate 10 0 ++ [1, 600000])).1.get? 10).map
        CheckResult.resetTime = some 600000) ∧
    ((600000 : Int) < 1 + 600000) := by
  exact ⟨by decide, by decide, by decide⟩

/-- Claim C5, amended.  When a client's in-window request count is at the
limit, the block expiry is `oldest-request + blockDurationMs`, computed
afresh at every call and NOT anchored at the rejection time: a call before
that expiry is rejected and leaves the window unchanged (so a rejection does
not extend the block), a call at or after it is accepted with a fresh window
`[now]`, and after a rejection at `now` a later call at `t` (while the same
requests remain in the window) sees the same expiry and is accepted exactly
when `t` has reached it. -/
theorem C5_amended_block_expiry (cat : Category) (id : String) (st : RLStore) (now : Int)
    (hcnt : (rateLimits cat).maxRequests ≤ (filteredReqs st id cat now).length) :
    (now < blockUntilOf st id cat now →
      checkRateLimit st id cat now =
        ({ allowed := false, remaining := 0, resetTime := blockUntilOf st id cat now,
           retryAfter := some ((blockUntilOf st id cat now - now + 999).ediv 1000) },
         setRec st id ⟨filteredReqs st id cat now, lastCleanupOf st id now⟩)) ∧
    (blockUntilOf st id cat now ≤ now →
      checkRateLimit st id cat now =
        ({ allowed := true, remaining := (rateLimits cat).maxRequests - 1,
           resetTime := now + (rateLimits cat).windowMs, retryAfter := none },
         setRec st id ⟨[now], now⟩)) ∧
    (∀ t : Int, now < blockUntilOf st id cat now → now ≤ t →
      (∀ x ∈ filteredReqs st id cat now, t - x < (rateLimits cat).windowMs) →
      (blockUntilOf (checkRateLimit st id cat now).2 id cat t = blockUntilOf st id cat now ∧
       ((checkRateLimit (checkRateLimit st id cat now).2 id cat t).1.allowed = true ↔
         blockUntilOf st id cat now ≤ t))) := by
  refine ⟨fun h => checkRateLimit_blocked st id cat now hcnt h,
          fun h => checkRateLimit_reset st id cat now hcnt h, ?_⟩
  intro t hblk hle hwin
  have hfirst := checkRateLimit_blocked st id cat now hcnt hblk
  have hfilter2 : filteredReqs (checkRateLimit st id cat now).2 id cat t =
      filteredReqs st id cat now := by
    simp only [hfirst]
    rw [filteredReqs_setRec]
    apply List.filter_eq_self.mpr
    intro x hx
    exact decide_eq_true (by have := hwin x hx; omega)
  have hbu2 : blockUntilOf (checkRateLimit st id cat now).2 id cat t =
      blockUntilOf st id cat now := by
    unfold blockUntilOf
    rw [hfilter2]
  have hge2 : (rateLimits cat).maxRequests ≤
      (filteredReqs (checkRateLimit st id cat now).2 id cat t).length := by
    rw [hfilter2]; exact hcnt
  refine ⟨hbu2, ?_, ?_⟩
  · intro hallow
    by_contra hlt
    push_neg at hlt
    have hrej := checkRateLimit_blocked _ id cat t hge2 (by rw [hbu2]; exact hlt)
    rw [hrej] at hallow
    simp at hallow
  · intro hge
    have hacc := checkRateLimit_reset _ id cat t hge2 (by rw [hbu2]; exact hge)
    rw [hacc]

/-- Witness for the amended C5: with ten requests at time 0, the call at
time 1 is rejected (the theorem's rejection branch) and the call at time
600000 — the computed expiry `0 + blockDurationMs` — is accepted again (the
theorem's availability branch). -/
theorem C5_amended_witness :
    ((checkRateLimit [("f", ⟨List.replicate 10 0, 0⟩)] "f" .adminAuthFailures 1).1.allowed
        = false) ∧
    ((checkRateLimit
        (checkRateLimit [("f", ⟨List.replicate 10 0, 0⟩)] "f" .adminAuthFailures 1).2
        "f" .adminAuthFailures 600000).1.allowed = true) := by
  have h := C5_amended_block_expiry .adminAuthFailures "f"
    [("f", ⟨List.replicate 10 0, 0⟩)] 1 (by decide)
  constructor
  · rw [h.1 (by decide)]
  · exact (h.2.2 600000 (by decide) (by decide) (by decide)).2.mpr (by decide)

/-- Claim C6 counterexample.  The claim says every failure path of `read()`
also deletes the `admin-session` cookie.  On the malformed-JSON path both
readers return a failure WITHOUT deleting the cookie (second component
`false`). -/
theorem C6_counterexample_badJson_no_deletion :
    (validateAdminSession Cookie.badJson (some "0xabc") "v1.0" 0
      = (⟨false, none, some "Invalid session format"⟩, false)) ∧
    (getAdminSession Cookie.badJson (some "0xabc") 0 = (none, false)) := by
  exact ⟨by decide, by decide⟩

/-- Claim C6, amended.  Both readers are total (never throw) and fail
closed, but the cookie is deleted only on the version-mismatch
(`validateAdminSession` only), expired, and no-longer-authorized paths —
not on the missing-cookie, malformed-JSON, or malformed-structure paths —
and `getAdminSession` checks neither structure nor version.  The four
equations characterize validity and deletion of both readers against the
explicit predicates `readValidSpec`/`readDeletesSpec`/`getValidSpec`/
`getDeletesSpec`. -/
theorem C6_amended_read_characterization (cookie : Cookie) (envAddrs : Option String)
    (ver : String) (now : Int) :
    (validateAdminSession cookie envAddrs ver now).1.isValid =
        readValidSpec cookie envAddrs ver now ∧
    (validateAdminSession cookie envAddrs ver now).2 =
        readDeletesSpec cookie envAddrs ver now ∧
    (getAdminSession cookie envAddrs now).1.isSome =
        getValidSpec cookie envAddrs now ∧
    (getAdminSession cookie envAddrs now).2 =
        getDeletesSpec cookie envAddrs now := by
  cases cookie with
  | missing => exact ⟨rfl, rfl, rfl, rfl⟩
  | badJson => exact ⟨rfl, rfl, rfl, rfl⟩
  | parsed s =>
    by_cases h1 : structFalsy s = true <;>
    by_cases h2 : versionBad s ver = true <;>
    by_cases h3 : jsGt now s.expiresAt = true <;>
    cases haddr : s.address with
    | none =>
      refine ⟨?_, ?_, ?_, ?_⟩ <;>
        simp [validateAdminSession, getAdminSession, readValidSpec, readDeletesSpec,
          getValidSpec, getDeletesSpec, h1, h2, h3, haddr]
    | some a =>
      cases hauth : isAuthorizedAddress envAddrs a with
      | error e =>
        refine ⟨?_, ?_, ?_, ?_⟩ <;>
          simp [validateAdminSession, getAdminSession, readValidSpec, readDeletesSpec,
            getValidSpec, getDeletesSpec, h1, h2, h3, haddr, hauth]
      | ok b =>
        cases b <;>
          (refine ⟨?_, ?_, ?_, ?_⟩ <;>
            simp [validateAdminSession, getAdminSession, readValidSpec, readDeletesSpec,
              getValidSpec, getDeletesSpec, h1, h2, h3, haddr, hauth])

/-- Claim C7 counterexample.  The repository contains two copies of
`clearAdminSession`; the copy at `src/app/admin/actions/auth.ts` clears the
cookie with a bare `cookieStore.delete('admin-session')` and passes NO
options at all, so its deletion does not carry the issuance attribute set
(path, domain, secure, sameSite) — refuting the claim for that copy. -/
theorem C7_counterexample_legacy_clear_without_attributes :
    ¬ ∃ o : CookieOpts, legacyClearDeleteOptions = some o ∧
      cookieAttrs o = cookieAttrs (secureCookieOptions "production" (some "https://example.com")) := by
  rintro ⟨o, h, _⟩
  exact Option.noConfusion h

/-- Claim C7, amended.  The FIXED copy of `clearAdminSession` (the one
spreading `SECURE_COOKIE_OPTIONS` into the deleting `set` call with
`maxAge: 0` and an epoch `expires`) does delete with exactly the issuance
attribute set — path, domain, secure and sameSite all agree with
`SECURE_COOKIE_OPTIONS` in every environment; the legacy copy instead passes
no options. -/
theorem C7_amended_fixed_clear_matches_attributes (nodeEnv : String)
    (publicUrl : Option String) :
    cookieAttrs (clearDeleteOptions nodeEnv publicUrl) =
        cookieAttrs (secureCookieOptions nodeEnv publicUrl) ∧
    legacyClearDeleteOptions = none := by
  exact ⟨rfl, rfl⟩

/-- Claim C8 counterexample.  The claim says a missing `ADMIN_ADDRESSES` is
a fatal process-start condition and that no component proceeds at runtime
with an empty allow-list.  In fact the middleware module initializes its
allow-list to `[]` when the variable is absent and its validator then runs
normally at request time, returning a routine rejection for an otherwise
perfectly valid session: a component does proceed at runtime with an empty
allow-list. -/
theorem C8_counterexample_middleware_runs_with_empty_allowlist :
    middlewareAddresses none = [] ∧
    validateAdminSessionMiddleware
        (Cookie.parsed ⟨some "0xabc", some 1, some 99999, some "v1.0"⟩) none "v1.0" 0
      = ⟨false, none, some "Address no longer authorized"⟩ := by
  exact ⟨rfl, by decide⟩

/-- Claim C8, amended.  Absence of `ADMIN_ADDRESSES` is not fatal at
process start: `getAuthorizedAddresses` throws only when called (at request
time, and every caller catches it) and the middleware falls back to an empty
allow-list.  The system nevertheless fails closed: with the variable absent
no address is ever authorized, every `getAdminSession` read returns null,
and both validators reject every cookie. -/
theorem C8_amended_fail_closed (addr : String) (cookie : Cookie) (ver : String) (now : Int) :
    isAuthorizedAddress none addr = Except.error () ∧
    (getAdminSession cookie none now).1 = none ∧
    (validateAdminSession cookie none ver now).1.isValid = false ∧
    (validateAdminSessionMiddleware cookie none ver now).isValid = false := by
  refine ⟨rfl, ?_, ?_, ?_⟩
  · cases cookie with
    | missing => rfl
    | badJson => rfl
    | parsed s =>
      by_cases h3 : jsGt now s.expiresAt = true <;>
      cases haddr : s.address <;>
        simp [getAdminSession, h3, haddr, isAuthorizedAddress, getAuthorizedAddresses]
  · cases cookie with
    | missing => rfl
    | badJson => rfl
    | parsed s =>
      by_cases h1 : structFalsy s = true <;>
      by_cases h2 : versionBad s ver = true <;>
      by_cases h3 : jsGt now s.expiresAt = true <;>
      cases haddr : s.address <;>
        simp [validateAdminSession, h1, h2, h3, haddr, isAuthorizedAddress,
          getAuthorizedAddresses]
  · cases cookie with
    | missing => rfl
    | badJson => rfl
    | parsed s =>
      by_cases h1 : structFalsy s = true <;>
      by_cases h2 : versionBad s ver = true <;>
      by_cases h3 : jsGt now s.expiresAt = true <;>
      cases haddr : s.address <;>
        simp [validateAdminSessionMiddleware, h1, h2, h3, haddr, middlewareAddresses]

/-- If the oracle does not accept the triple, `verifyAdminSignature` cannot
succeed, whatever the rate-limit store holds. -/
theorem verify_success_false_of_oracle_ne
    (oracle : String → String → String → Except Unit Bool)
    (envAddrs : Option String) (ver : String) (fwd realIp cfIp : Option String)
    (st : RLStore) (now : Int) (address sg msg : String)
    (h : oracle address sg msg ≠ Except.ok true) :
    (verifyAdminSignature oracle envAddrs ver fwd realIp cfIp st now address sg msg).1.success
      = false := by
  cases hs : (verifyAdminSignature oracle envAddrs ver fwd realIp cfIp st now
      address sg msg).1.success with
  | false => rfl
  | true =>
    exact absurd (verify_success_requires_oracle oracle envAddrs ver fwd realIp cfIp st now
      address sg msg hs).2 h

/-- Claim C9 counterexample.  With nine auth-failure timestamps already in
the caller's window, a first `verifyAdminSignature` call on a valid triple
succeeds (its pre-check fills the tenth slot), and the immediately repeated
call on the same triple is rejected by the rate limiter — the same
`(address, signature, message)` triple yields `true` then `false`. -/
theorem C9_counterexample_consecutive_calls_differ :
    ((verifyAdminSignature (fun _ _ _ => Except.ok true) (some "0xabc") "v1.0" none none none
        [("unknown", ⟨List.replicate 9 0, 0⟩)] 0 "0xabc" "s" "m").1.success = true) ∧
    ((verifyAdminSignature (fun _ _ _ => Except.ok true) (some "0xabc") "v1.0" none none none
        (verifyAdminSignature (fun _ _ _ => Except.ok true) (some "0xabc") "v1.0" none none none
          [("unknown", ⟨List.replicate 9 0, 0⟩)] 0 "0xabc" "s" "m").2
        0 "0xabc" "s" "m").1.success = false) := by
  exact ⟨by decide, by decide⟩

/-- Claim C9, amended.  The signature-verification outcome itself is a pure
function of the triple, and two consecutive `verifyAdminSignature` calls on
the same triple return the same success boolean PROVIDED the caller's
in-window `admin_auth_failures` count before the first call is at most
`maxRequests - 2` (i.e. 8) — without that margin the first call's recorded
pre-check can push the second call over the limit. -/
theorem C9_amended_idempotent_below_margin
    (oracle : String → String → String → Except Unit Bool)
    (envAddrs : Option String) (ver : String) (fwd realIp cfIp : Option String)
    (st : RLStore) (now : Int) (address sg msg : String)
    (h : authWindowCount st (clientIpFrom fwd realIp cfIp) now ≤ 8) :
    (verifyAdminSignature oracle envAddrs ver fwd realIp cfIp st now address sg msg).1.success =
    (verifyAdminSignature oracle envAddrs ver fwd realIp cfIp
        (verifyAdminSignature oracle envAddrs ver fwd realIp cfIp st now address sg msg).2
        now address sg msg).1.success := by
  by_cases horacle : oracle address sg msg = Except.ok true
  · cases hauth : isAuthorizedAddress envAddrs address with
    | error e => simp [verifyAdminSignature, hauth]
    | ok b =>
      cases b with
      | false => simp [verifyAdminSignature, hauth]
      | true =>
        have hpre := authWindowCount_accept st (clientIpFrom fwd realIp cfIp) now (by omega)
        have hpre2 := authWindowCount_accept
          (checkRateLimit st (clientIpFrom fwd realIp cfIp) .adminAuthFailures now).2
          (clientIpFrom fwd realIp cfIp) now (by rw [hpre.2]; omega)
        simp only [verifyAdminSignature, hauth, checkAuthFailureRateLimit, horacle,
          hpre.1, Bool.true_eq_false, if_false]
        simp only [hpre2.1, Bool.true_eq_false, if_false]
  · rw [verify_success_false_of_oracle_ne oracle envAddrs ver fwd realIp cfIp st now
      address sg msg horacle,
      verify_success_false_of_oracle_ne oracle envAddrs ver fwd realIp cfIp _ now
      address sg msg horacle]

/-- Witness for the amended C9: from an empty store (count 0 ≤ 8) two
consecutive successful calls agree. -/
theorem C9_amended_witness :
    (verifyAdminSignature (fun _ _ _ => Except.ok true) (some "0xabc") "v1.0" none none none
        [] 0 "0xabc" "s" "m").1.success =
    (verifyAdminSignature (fun _ _ _ => Except.ok true) (some "0xabc") "v1.0" none none none
        (verifyAdminSignature (fun _ _ _ => Except.ok true) (some "0xabc") "v1.0"
          none none none [] 0 "0xabc" "s" "m").2 0 "0xabc" "s" "m").1.success :=
  C9_amended_idempotent_below_margin (fun _ _ _ => Except.ok true) (some "0xabc") "v1.0"
    none none none [] 0 "0xabc" "s" "m" (by decide)

/-- Claim C10.  With none of the ip headers present, the fingerprint is
`unknown:` followed by the first 20 characters of the user-agent
(`unknown:unknown` with no user-agent), and it never depends on user-agent
characters past the 20th. -/
theorem C10_fingerprint_without_ip_headers (u v : String) :
    getClientId none none none none = "unknown" ++ ":" ++ "unknown" ∧
    (u ≠ "" → getClientId none none none (some u) = "unknown" ++ ":" ++ jsSubstring u 20) ∧
    (u ≠ "" → v ≠ "" → jsSubstring u 20 = jsSubstring v 20 →
      getClientId none none none (some u) = getClientId none none none (some v)) := by
  refine ⟨rfl, ?_, ?_⟩
  · intro h
    simp [getClientId, jsOr, h]
  · intro h1 h2 h3
    simp [getClientId, jsOr, h1, h2, h3]

/-- Witness for C10: a 25-character user-agent is truncated to its first 20
characters, and two user-agents sharing those 20 characters share one
fingerprint. -/
theorem C10_witness :
    getClientId none none none (some "abcdefghijklmnopqrstuvwxy") =
        "unknown" ++ ":" ++ jsSubstring "abcdefghijklmnopqrstuvwxy" 20 ∧
    getClientId none none none (some "abcdefghijklmnopqrstuvwxy") =
      getClientId none none none (some "abcdefghijklmnopqrstVWXYZ") := by
  constructor
  · exact (C10_fingerprint_without_ip_headers "abcdefghijklmnopqrstuvwxy"
      "abcdefghijklmnopqrstVWXYZ").2.1 (by decide)
  · exact (C10_fingerprint_without_ip_headers "abcdefghijklmnopqrstuvwxy"
      "abcdefghijklmnopqrstVWXYZ").2.2 (by decide) (by decide) (by decide)
